import Mathlib

/-!
Shallow embedding of `src/pomodoro.js`, a browser pomodoro timer.

Conventions of the embedding:
* JS numbers are modelled as rationals; a value that can be NaN is `Option ℚ`
  with `none` standing for NaN (every arithmetic comparison with `none` is false).
* An input element's content is a `FieldVal`: the empty string, a numeric
  string holding `q`, or a non-numeric string (whose `Number` is NaN).
* Wall-clock readings (`performance.now()`, animation-frame timestamps) are
  passed to the operations as explicit rational parameters.
* The ring element's `strokeDashoffset` is always a rational multiple of the
  constant `CIRCUMFERENCE = 2 * pi * 120`; the field `ringOffsetCoeff` stores that
  rational coefficient, so offset `CIRCUMFERENCE` (the empty indicator) is
  coefficient `1`, and `render`'s offset `CIRCUMFERENCE - progress * CIRCUMFERENCE`
  is coefficient `1 - progress`.
* The pending `requestAnimationFrame` callback is modelled by the boolean
  `frame` (true while a callback is scheduled); `cancelAnimationFrame` clears
  it, entering `loop` consumes it, and re-arming sets it.
-/

namespace Pomodoro

/-- The three values of `PHASES` (pomodoro.js lines 17-21). -/
inductive Phase
  | FOCUS
  | SHORT
  | LONG
deriving DecidableEq

/-- The display string of each phase (`PHASES.FOCUS` etc.). -/
def phaseLabel : Phase → String
  | .FOCUS => "FOCUS"
  | .SHORT => "SHORT BREAK"
  | .LONG => "LONG BREAK"

/-- Content of a DOM input field: the empty string, a numeric string, or a
non-numeric string (`Number` of which is NaN). -/
inductive FieldVal
  | empty
  | num (q : ℚ)
  | nan
deriving DecidableEq

/-- The JS idiom `Number(v) || d` used at every configuration read site except
`reset`: the empty string parses to `0` which is falsy, `NaN` is falsy, and a
parsed `0` is falsy, so all three fall back to `d`. -/
def numOr : FieldVal → ℚ → ℚ
  | .empty, d => d
  | .num q, d => if q = 0 then d else q
  | .nan, d => d

/-- The different idiom `Number(v || d)` used only by `reset`
(pomodoro.js line 155): the `||` acts on the raw string, so only the empty
string falls back to `d`; a non-numeric string yields NaN (`none`). -/
def resetParse : FieldVal → ℚ → Option ℚ
  | .empty, d => some d
  | .num q, _ => some q
  | .nan, _ => none

/-- `clamp` from the source (lines 44-46): `Math.max(min, Math.min(max, v))`. -/
def clamp (v lo hi : ℚ) : ℚ := max lo (min hi v)

/-- JS `Math.round`: round half toward positive infinity, i.e. `⌊x + 1/2⌋`. -/
def jsRound (q : ℚ) : ℤ := ⌊q + 1 / 2⌋

/-- JS truncation toward zero, the integer part used by the `%` operator. -/
def ratTrunc (q : ℚ) : ℤ := if 0 ≤ q then ⌊q⌋ else ⌈q⌉

/-- The JS remainder `a % b` on finite numbers: NaN (`none`) when `b = 0`,
otherwise `a - b * trunc (a / b)`. -/
def jsRem (a b : ℚ) : Option ℚ :=
  if b = 0 then none else some (a - b * (ratTrunc (a / b) : ℚ))

/-- Decimal digit accumulator for `natToStr`, structural on a fuel argument. -/
def natToStrAux : ℕ → ℕ → List Char
  | 0, _ => []
  | fuel + 1, n =>
    if n = 0 then [] else natToStrAux fuel (n / 10) ++ [Nat.digitChar (n % 10)]

/-- JS `String(m)` for a nonnegative integer: its decimal representation. -/
def natToStr (n : ℕ) : String :=
  if n = 0 then "0" else String.mk (natToStrAux (n + 1) n)

/-- JS `s.padStart(2, "0")`. -/
def padStart2 (s : String) : String :=
  if 2 ≤ s.length then s else if s.length = 1 then "0" ++ s else "00"

/-- `formatMMSS` from the source (lines 48-55); `none` models a NaN argument,
for which every JS step propagates NaN and the result is the string
`"NaN:NaN"`. -/
def formatMMSS : Option ℚ → String
  | none => "NaN:NaN"
  | some t =>
    let s : ℕ := (max 0 ⌊t⌋).toNat
    padStart2 (natToStr (s / 60)) ++ ":" ++ padStart2 (natToStr (s % 60))

/-- The mutable `state` object (lines 31-39); `duration` is `Option ℚ` because
`reset` can set it to NaN, `startTime` is `none` for `null`. -/
structure TimerState where
  isRunning : Bool
  phase : Phase
  cycleCount : ℕ
  startTime : Option ℚ
  duration : Option ℚ
  elapsed : ℚ
deriving DecidableEq

/-- The four configuration input fields. -/
structure Inputs where
  focus : FieldVal
  short : FieldVal
  long : FieldVal
  cycles : FieldVal
deriving DecidableEq

/-- The visible outputs: phase label, countdown text, toggle-button text, and
the progress ring (as the rational coefficient of `CIRCUMFERENCE` in its
`strokeDashoffset`). -/
structure UIOut where
  label : String
  timer : String
  toggleBtn : String
  ringOffsetCoeff : ℚ
deriving DecidableEq

/-- The whole observable world: timer state, input fields, visible outputs and
whether an animation-frame callback is pending. -/
structure World where
  st : TimerState
  inp : Inputs
  ui : UIOut
  frame : Bool
deriving DecidableEq

/-- JS subtraction where the left operand may be NaN. -/
def jsSub (a : Option ℚ) (b : ℚ) : Option ℚ := a.map (fun x => x - b)

/-- JS `Math.max(0, x)` where `x` may be NaN (`Math.max` with NaN is NaN). -/
def jsMax0 (a : Option ℚ) : Option ℚ := a.map (max 0)

/-- JS falsiness of `state.startTime`: `null` or `0`. -/
def falsyTime : Option ℚ → Bool
  | none => true
  | some q => decide (q = 0)

/-- JS `e >= d` where `d` may be NaN: every comparison with NaN is false. -/
def geOpt (e : ℚ) : Option ℚ → Bool
  | none => false
  | some d => decide (d ≤ e)

/-- `render` (lines 57-64): writes the countdown text
`formatMMSS (max 0 (duration - elapsed))` and the ring offset
`CIRCUMFERENCE - progress * CIRCUMFERENCE` where
`progress = duration > 0 ? elapsed / duration : 0`. -/
def render (w : World) : World :=
  let remaining := jsMax0 (jsSub w.st.duration w.st.elapsed)
  let progress : ℚ :=
    match w.st.duration with
    | some d => if 0 < d then w.st.elapsed / d else 0
    | none => 0
  { w with ui := { w.ui with timer := formatMMSS remaining,
                             ringOffsetCoeff := 1 - progress } }

/-- The configuration read of `setPhase` (lines 71-78): the minutes field of
the target phase through `Number(v) || default`. -/
def phaseMinutes (p : Phase) (inp : Inputs) : ℚ :=
  match p with
  | .FOCUS => numOr inp.focus 25
  | .SHORT => numOr inp.short 5
  | .LONG => numOr inp.long 15

/-- `setPhase(newPhase, fromTransition)` (lines 66-87), with the
`performance.now()` reading passed in as `now`. -/
def setPhase (p : Phase) (fromTransition : Bool) (now : ℚ) (w : World) : World :=
  let minutes : ℚ := phaseMinutes p w.inp
  let st1 := { w.st with phase := p, elapsed := 0, startTime := some now,
                         duration := some (minutes * 60) }
  let w1 := { w with st := st1, ui := { w.ui with label := phaseLabel p } }
  if fromTransition then w1
  else render { w1 with ui := { w1.ui with timer := formatMMSS st1.duration } }

/-- `nextPhase` (lines 89-102). -/
def nextPhase (now : ℚ) (w : World) : World :=
  if w.st.phase = .FOCUS then
    let w1 := { w with st := { w.st with cycleCount := w.st.cycleCount + 1 } }
    let cyclesBeforeLong := numOr w.inp.cycles 4
    if jsRem (w1.st.cycleCount : ℚ) cyclesBeforeLong = some 0 then
      setPhase .LONG true now w1
    else
      setPhase .SHORT true now w1
  else setPhase .FOCUS true now w

/-- `loop(timestamp)` (lines 104-121): the per-frame tick. `t` is the
animation-frame timestamp; `now1` and `now2` are the two `performance.now()`
readings that can occur inside a transition (inside `setPhase`, and at line
116 which rebases `startTime` after the transition). Entering the callback
consumes the pending frame; re-arming at the end sets it again. -/
def loop (t now1 now2 : ℚ) (w : World) : World :=
  let w0 := { w with frame := false }
  if ¬ w0.st.isRunning then w0 else
  let st1 := if falsyTime w0.st.startTime then { w0.st with startTime := some t }
             else w0.st
  let elapsed1 := (t - st1.startTime.getD 0) / 1000
  let w2 := { w0 with st := { st1 with elapsed := elapsed1 } }
  let w3 :=
    if geOpt elapsed1 w2.st.duration then
      let w2a := { w2 with st := { w2.st with elapsed := w2.st.duration.getD 0 } }
      let w2b := nextPhase now1 (render w2a)
      { w2b with st := { w2b.st with startTime := some now2 } }
    else w2
  let w4 := render w3
  { w4 with frame := true }

/-- `start()` (lines 125-135), with the `performance.now()` reading as `now`. -/
def start (now : ℚ) (w : World) : World :=
  if w.st.isRunning then w else
  let w1 :=
    if falsyTime w.st.startTime then
      if w.st.elapsed = 0 ∧ w.st.duration = some 0 then setPhase .FOCUS false now w
      else w
    else { w with st := { w.st with startTime := some (now - w.st.elapsed * 1000) } }
  { w1 with st := { w1.st with isRunning := true },
            ui := { w1.ui with toggleBtn := "Pause" },
            frame := true }

/-- `pause()` (lines 137-142). -/
def pause (w : World) : World :=
  if w.st.isRunning then
    { w with st := { w.st with isRunning := false },
             ui := { w.ui with toggleBtn := "Resume" },
             frame := false }
  else w

/-- `reset()` (lines 149-162). Note line 155 reads the focus field through
`Number(value || 25)`, not `Number(value) || 25`. -/
def reset (w : World) : World :=
  let dur := (resetParse w.inp.focus 25).map (fun m => m * 60)
  { st := { isRunning := false, phase := .FOCUS, cycleCount := 0,
            startTime := none, duration := dur, elapsed := 0 },
    inp := w.inp,
    ui := { label := "READY", timer := formatMMSS dur, toggleBtn := "Start",
            ringOffsetCoeff := 1 },
    frame := false }

/-- `LIMIT` (line 168). -/
def LIMIT : ℚ := 9000

/-- The `change` handler of the focus field (lines 171-179). -/
def onFocusChange (w : World) : World :=
  let f := numOr w.inp.focus 25
  let inp1 := { w.inp with short := .num (clamp (jsRound (f / 5) : ℚ) 1 LIMIT),
                           long := .num (clamp (jsRound (f * 0.6) : ℚ) 5 LIMIT) }
  let w1 := { w with inp := inp1 }
  if w1.st.isRunning then w1 else reset w1

/-- The `change` handler of the short field (lines 182-190). -/
def onShortChange (w : World) : World :=
  let s := numOr w.inp.short 5
  let inp1 := { w.inp with focus := .num (clamp (s * 5) 5 LIMIT),
                           long := .num (clamp (s * 3) 5 LIMIT) }
  let w1 := { w with inp := inp1 }
  if w1.st.isRunning then w1 else reset w1

/-- The `change` handler of the long field (lines 193-201). -/
def onLongChange (w : World) : World :=
  let l := numOr w.inp.long 15
  let inp1 := { w.inp with focus := .num (clamp (jsRound (l / 0.6) : ℚ) 5 LIMIT),
                           short := .num (clamp (jsRound (l / 3) : ℚ) 1 LIMIT) }
  let w1 := { w with inp := inp1 }
  if w1.st.isRunning then w1 else reset w1

/-- A fresh, not-running world with the default configuration, used as a
concrete input by several witnesses. -/
def sampleWorld : World :=
  ⟨⟨false, Phase.FOCUS, 0, none, some 1500, 0⟩,
   ⟨FieldVal.num 25, FieldVal.num 5, FieldVal.num 15, FieldVal.num 4⟩,
   ⟨"FOCUS", "25:00", "Start", 1⟩, false⟩

/-- A running world in the middle of a 25-minute FOCUS countdown with 600
seconds elapsed (the scenario of the spec's reset-from-mid-countdown test). -/
def midCountdown : World :=
  ⟨⟨true, Phase.FOCUS, 0, some 0, some 1500, 600⟩,
   ⟨FieldVal.num 25, FieldVal.num 5, FieldVal.num 15, FieldVal.num 4⟩,
   ⟨"FOCUS", "15:00", "Pause", 1 - 600 / 1500⟩, true⟩

/-- The elapsed-time invariant of the spec: elapsed is nonnegative and never
exceeds a numeric duration. -/
def InvElapsed (st : TimerState) : Prop :=
  0 ≤ st.elapsed ∧ ∀ d : ℚ, st.duration = some d → st.elapsed ≤ d

/-- Well-formed configuration reads: every minutes value an operation can read
from the fields is nonnegative (the spec clamps all fields into positive
ranges, so reachable configurations satisfy this). -/
def GoodInputs (inp : Inputs) : Prop :=
  0 ≤ numOr inp.focus 25 ∧ 0 ≤ numOr inp.short 5 ∧ 0 ≤ numOr inp.long 15 ∧
  ∀ q : ℚ, resetParse inp.focus 25 = some q → 0 ≤ q

/-! ## Helper lemmas -/

/-- The timer state is untouched by `render`. -/
theorem render_st (w : World) : (render w).st = w.st := rfl

/-- The input fields are untouched by `render`. -/
theorem render_inp (w : World) : (render w).inp = w.inp := rfl

/-- The state produced by `setPhase`. -/
theorem setPhase_st (p : Phase) (ft : Bool) (now : ℚ) (w : World) :
    (setPhase p ft now w).st =
      { w.st with phase := p, elapsed := 0, startTime := some now,
                  duration := some (phaseMinutes p w.inp * 60) } := by
  unfold setPhase
  split <;> rfl

/-- The input fields are untouched by `setPhase`. -/
theorem setPhase_inp (p : Phase) (ft : Bool) (now : ℚ) (w : World) :
    (setPhase p ft now w).inp = w.inp := by
  unfold setPhase
  split <;> rfl

/-- `numOr` of a nonzero numeric field is the number itself. -/
theorem numOr_num (q d : ℚ) (hq : q ≠ 0) : numOr (FieldVal.num q) d = q :=
  if_neg hq

/-- `clamp` never goes below the lower bound. -/
theorem clamp_lo (v lo hi : ℚ) : lo ≤ clamp v lo hi := le_max_left _ _

/-- `clamp` never exceeds the upper bound when the bounds are ordered. -/
theorem clamp_hi (v lo hi : ℚ) (h : lo ≤ hi) : clamp v lo hi ≤ hi :=
  max_le h (min_le_left _ _)

/-- `clamp` is the identity inside the bounds. -/
theorem clamp_eq_self (v lo hi : ℚ) (h1 : lo ≤ v) (h2 : v ≤ hi) :
    clamp v lo hi = v := by
  unfold clamp
  rw [min_eq_right h2, max_eq_right h1]

/-- `jsRound` is at most its argument plus a half. -/
theorem jsRound_le (q : ℚ) : (jsRound q : ℚ) ≤ q + 1 / 2 :=
  Int.floor_le _

/-- `jsRound` exceeds its argument minus a half. -/
theorem lt_jsRound (q : ℚ) : q - 1 / 2 < (jsRound q : ℚ) := by
  have h := Int.lt_floor_add_one (q + 1 / 2)
  unfold jsRound
  linarith

/-- The floor of a quotient of natural-number casts is natural division. -/
theorem floor_natCast_div (a n : ℕ) : ⌊(a : ℚ) / (n : ℚ)⌋ = ((a / n : ℕ) : ℤ) := by
  rw [show ((a : ℚ)) = ((a : ℤ) : ℚ) by push_cast; ring,
      Rat.floor_intCast_div_natCast (a : ℤ) n]
  exact (Int.ofNat_div a n).symm

/-- On natural-number casts with a positive modulus, the JS remainder agrees
with natural-number `%`. -/
theorem jsRem_natCast (a n : ℕ) (hn : 0 < n) :
    jsRem (a : ℚ) (n : ℚ) = some (((a % n : ℕ) : ℚ)) := by
  have hn' : ((n : ℚ)) ≠ 0 := Nat.cast_ne_zero.mpr hn.ne'
  have h0 : 0 ≤ (a : ℚ) / (n : ℚ) := by positivity
  unfold jsRem ratTrunc
  rw [if_neg hn', if_pos h0, floor_natCast_div]
  have h := Nat.mod_add_div a n
  have hq : ((a % n : ℕ) : ℚ) + (n : ℚ) * ((a / n : ℕ) : ℚ) = (a : ℚ) := by
    exact_mod_cast congrArg (Nat.cast : ℕ → ℚ) h
  congr 1
  rw [Int.cast_natCast]
  linarith

/-- The input fields produced by a focus edit (independent of the
running-state branch, since `reset` never writes the inputs). -/
theorem onFocusChange_inp (w : World) :
    (onFocusChange w).inp =
      { w.inp with
          short := FieldVal.num (clamp ((jsRound (numOr w.inp.focus 25 / 5) : ℤ) : ℚ) 1 LIMIT),
          long := FieldVal.num (clamp ((jsRound (numOr w.inp.focus 25 * 0.6) : ℤ) : ℚ) 5 LIMIT) } := by
  cases hr : w.st.isRunning
  · simp [onFocusChange, reset, hr]
  · simp [onFocusChange, hr]

/-- The input fields produced by a short edit. -/
theorem onShortChange_inp (w : World) :
    (onShortChange w).inp =
      { w.inp with
          focus := FieldVal.num (clamp (numOr w.inp.short 5 * 5) 5 LIMIT),
          long := FieldVal.num (clamp (numOr w.inp.short 5 * 3) 5 LIMIT) } := by
  cases hr : w.st.isRunning
  · simp [onShortChange, reset, hr]
  · simp [onShortChange, hr]

/-- The input fields produced by a long edit. -/
theorem onLongChange_inp (w : World) :
    (onLongChange w).inp =
      { w.inp with
          focus := FieldVal.num (clamp ((jsRound (numOr w.inp.long 15 / 0.6) : ℤ) : ℚ) 5 LIMIT),
          short := FieldVal.num (clamp ((jsRound (numOr w.inp.long 15 / 3) : ℤ) : ℚ) 1 LIMIT) } := by
  cases hr : w.st.isRunning
  · simp [onLongChange, reset, hr]
  · simp [onLongChange, hr]

/-- Round-trip bound for the short path: focus edit derives the short field,
and a short edit on the derived value recomputes focus within 3 of the
original. -/
theorem shortPathBound (f : ℚ) (h5 : 5 ≤ f) (h9 : f ≤ 9000) :
    |clamp (clamp ((jsRound (f / 5) : ℤ) : ℚ) 1 LIMIT * 5) 5 LIMIT - f| ≤ 3 := by
  have hub : ((jsRound (f / 5) : ℤ) : ℚ) ≤ f / 5 + 1 / 2 := jsRound_le _
  have hlb : f / 5 - 1 / 2 < ((jsRound (f / 5) : ℤ) : ℚ) := lt_jsRound _
  set r : ℤ := jsRound (f / 5) with hr
  have hz : (0 : ℤ) < r := by
    have : (0 : ℚ) < (r : ℚ) := by linarith
    exact_mod_cast this
  have hr1 : (1 : ℚ) ≤ (r : ℚ) := by exact_mod_cast hz
  have hlt : r < 1801 := by
    have : (r : ℚ) < 1801 := by linarith
    exact_mod_cast this
  have hr18 : (r : ℚ) ≤ 1800 := by exact_mod_cast Int.lt_add_one_iff.mp hlt
  rw [clamp_eq_self _ _ _ hr1 (by norm_num [LIMIT]; linarith),
      clamp_eq_self _ _ _ (by linarith) (by norm_num [LIMIT]; linarith)]
  rw [abs_le]
  constructor <;> linarith

/-- Round-trip bound for the long path: focus edit derives the long field, and
a long edit on the derived value recomputes focus within 3 of the original. -/
theorem longPathBound (f : ℚ) (h5 : 5 ≤ f) (h9 : f ≤ 9000) :
    |clamp ((jsRound (clamp ((jsRound (f * 0.6) : ℤ) : ℚ) 5 LIMIT / 0.6) : ℤ) : ℚ) 5 LIMIT - f| ≤ 3 := by
  have hub : ((jsRound (f * 0.6) : ℤ) : ℚ) ≤ f * 0.6 + 1 / 2 := jsRound_le _
  have hlb : f * 0.6 - 1 / 2 < ((jsRound (f * 0.6) : ℤ) : ℚ) := lt_jsRound _
  set r : ℤ := jsRound (f * 0.6) with hr
  have hrle : (r : ℚ) ≤ 5400 := by
    have h1 : (r : ℚ) < 5401 := by linarith
    have h2 : r < 5401 := by exact_mod_cast h1
    exact_mod_cast Int.lt_add_one_iff.mp h2
  have hcl : clamp ((r : ℚ)) 5 LIMIT = max 5 (r : ℚ) := by
    unfold clamp
    rw [show (LIMIT : ℚ) = 9000 from rfl, min_eq_right (by linarith)]
  rw [hcl]
  rcases le_or_lt 5 ((r : ℚ)) with hc | hc
  · rw [max_eq_right hc]
    have hub2 : ((jsRound ((r : ℚ) / 0.6) : ℤ) : ℚ) ≤ (r : ℚ) / 0.6 + 1 / 2 := jsRound_le _
    have hlb2 : (r : ℚ) / 0.6 - 1 / 2 < ((jsRound ((r : ℚ) / 0.6) : ℤ) : ℚ) := lt_jsRound _
    set m : ℤ := jsRound ((r : ℚ) / 0.6) with hm
    have hd : (r : ℚ) / 0.6 = (r : ℚ) * 5 / 3 := by
      rw [show (0.6 : ℚ) = 3 / 5 by norm_num]
      ring
    rw [hd] at hub2 hlb2
    have hm5 : (5 : ℚ) ≤ (m : ℚ) := by
      have h7 : (7 : ℚ) < (m : ℚ) := by linarith
      have h7i : (7 : ℤ) < m := by exact_mod_cast h7
      have h8 : (8 : ℚ) ≤ (m : ℚ) := by exact_mod_cast h7i
      linarith
    have hm9 : (m : ℚ) ≤ 9000 := by
      have h1 : (m : ℚ) < 9001 := by linarith
      have h2 : m < 9001 := by exact_mod_cast h1
      exact_mod_cast Int.lt_add_one_iff.mp h2
    rw [clamp_eq_self _ _ _ hm5 (by rw [show (LIMIT : ℚ) = 9000 from rfl]; linarith)]
    rw [abs_le]
    constructor <;> linarith
  · rw [max_eq_left hc.le]
    have h8 : jsRound ((5 : ℚ) / 0.6) = 8 := by norm_num [jsRound]
    rw [h8]
    rw [clamp_eq_self _ _ _ (by norm_num) (by norm_num [LIMIT])]
    rw [abs_le]
    push_cast
    constructor <;> linarith

/-- A number at least `10 ^ k` has more than `k` decimal digits. -/
theorem natToStrAux_length (fuel : ℕ) : ∀ n k : ℕ, n ≤ fuel → 10 ^ k ≤ n →
    k + 1 ≤ (natToStrAux fuel n).length := by
  induction fuel with
  | zero =>
    intro n k hfuel hn
    have := pow_pos (by norm_num : (0:ℕ) < 10) k
    omega
  | succ fuel ih =>
    intro n k hfuel hn
    have hpow := pow_pos (by norm_num : (0:ℕ) < 10) k
    have hn0 : n ≠ 0 := by omega
    unfold natToStrAux
    rw [if_neg hn0, List.length_append]
    cases k with
    | zero => simp
    | succ k =>
      have h10 : 10 ^ k ≤ n / 10 := by
        rw [Nat.le_div_iff_mul_le (by norm_num)]
        calc 10 ^ k * 10 = 10 ^ (k + 1) := by ring
        _ ≤ n := hn
      have hlt : n / 10 < n := Nat.div_lt_self (by omega) (by norm_num)
      have := ih (n / 10) k (by omega) h10
      simp only [List.length_cons, List.length_nil]
      omega

/-- A number at least `10 ^ k` renders with more than `k` characters. -/
theorem natToStr_length (n k : ℕ) (h : 10 ^ k ≤ n) :
    k + 1 ≤ (natToStr n).length := by
  have hpow := pow_pos (by norm_num : (0:ℕ) < 10) k
  have hn0 : n ≠ 0 := by omega
  unfold natToStr
  rw [if_neg hn0, String.length_mk]
  exact natToStrAux_length (n + 1) n k (by omega) h

/-- `padStart2` always produces at least two characters. -/
theorem padStart2_length (s : String) : 2 ≤ (padStart2 s).length := by
  unfold padStart2
  split_ifs with h1 h2
  · exact h1
  · rw [String.length_append]
    have h0 : ("0" : String).length = 1 := rfl
    omega
  · decide

/-- `padStart2` leaves a string of two or more characters unchanged. -/
theorem padStart2_of_ge (s : String) (h : 2 ≤ s.length) : padStart2 s = s := by
  unfold padStart2
  rw [if_pos h]

/-- The minutes read for any phase are nonnegative on good inputs. -/
theorem phaseMinutes_nonneg (inp : Inputs) (h : GoodInputs inp) (p : Phase) :
    0 ≤ phaseMinutes p inp := by
  cases p
  · exact h.1
  · exact h.2.1
  · exact h.2.2.1

/-- The invariant only depends on the elapsed and duration fields. -/
theorem InvElapsed_of_fields (st st' : TimerState) (he : st'.elapsed = st.elapsed)
    (hd : st'.duration = st.duration) (h : InvElapsed st) : InvElapsed st' := by
  unfold InvElapsed at h ⊢
  rw [he, hd]
  exact h

/-- `setPhase` establishes the invariant on good inputs. -/
theorem InvElapsed_setPhase (w : World) (p : Phase) (ft : Bool) (now : ℚ)
    (h : GoodInputs w.inp) : InvElapsed (setPhase p ft now w).st := by
  unfold InvElapsed
  rw [setPhase_st]
  refine ⟨le_rfl, ?_⟩
  intro d hd
  simp only [Option.some.injEq] at hd
  rw [← hd]
  exact mul_nonneg (phaseMinutes_nonneg w.inp h p) (by norm_num)

/-- `nextPhase` always leaves a zero elapsed time. -/
theorem nextPhase_elapsed (now : ℚ) (w : World) : (nextPhase now w).st.elapsed = 0 := by
  simp only [nextPhase]
  split_ifs <;> rw [setPhase_st]

/-- The duration `nextPhase` installs is nonnegative on good inputs. -/
theorem nextPhase_duration_nonneg (now : ℚ) (w : World) (h : GoodInputs w.inp) :
    ∀ d : ℚ, (nextPhase now w).st.duration = some d → 0 ≤ d := by
  intro d hd
  simp only [nextPhase] at hd
  split_ifs at hd <;> rw [setPhase_st] at hd <;>
    simp only [Option.some.injEq] at hd <;> rw [← hd] <;>
    exact mul_nonneg (phaseMinutes_nonneg w.inp h _) (by norm_num)

/-- `start` preserves the invariant. -/
theorem InvElapsed_start (w : World) (now : ℚ) (h : GoodInputs w.inp)
    (hw : InvElapsed w.st) : InvElapsed (start now w).st := by
  simp only [start]
  split_ifs with h1 h2 h3
  · exact hw
  · exact InvElapsed_of_fields _ _ rfl rfl (InvElapsed_setPhase w Phase.FOCUS false now h)
  · exact InvElapsed_of_fields _ _ rfl rfl hw
  · exact InvElapsed_of_fields _ _ rfl rfl hw

/-- `pause` preserves the invariant. -/
theorem InvElapsed_pause (w : World) (hw : InvElapsed w.st) : InvElapsed (pause w).st := by
  simp only [pause]
  split_ifs
  · exact InvElapsed_of_fields _ _ rfl rfl hw
  · exact hw

/-- `reset` establishes the invariant on good inputs. -/
theorem InvElapsed_reset (w : World) (h : GoodInputs w.inp) : InvElapsed (reset w).st := by
  simp only [reset, InvElapsed]
  refine ⟨le_rfl, ?_⟩
  intro d hd
  simp only [Option.map_eq_some'] at hd
  obtain ⟨q, hq, hfq⟩ := hd
  rw [← hfq]
  exact mul_nonneg (h.2.2.2 q hq) (by norm_num)

/-- `nextPhase` establishes the invariant on good inputs. -/
theorem InvElapsed_nextPhase (now : ℚ) (w : World) (h : GoodInputs w.inp) :
    InvElapsed (nextPhase now w).st := by
  refine ⟨by simp [nextPhase_elapsed], ?_⟩
  intro d hd
  rw [nextPhase_elapsed]
  exact nextPhase_duration_nonneg now w h d hd

/-- A `loop` tick preserves the invariant when the frame timestamp is not
before the reference point. -/
theorem InvElapsed_loop (w : World) (t now1 now2 : ℚ) (h : GoodInputs w.inp)
    (hw : InvElapsed w.st) (ht : ∀ s : ℚ, w.st.startTime = some s → s ≤ t) :
    InvElapsed (loop t now1 now2 w).st := by
  simp only [loop]
  split_ifs with h1 h2 h3 h4
  · -- running, falsy reference, transition tick
    exact InvElapsed_of_fields _ _ rfl rfl (InvElapsed_nextPhase now1 _ h)
  · -- running, falsy reference (rebased to t), ordinary tick
    refine ⟨by simp [render_st], ?_⟩
    intro d hd
    simp only [render_st, Option.getD_some] at h3 hd ⊢
    rw [hd] at h3
    simp only [geOpt, sub_self, zero_div, decide_eq_true_eq] at h3
    simp only [sub_self, zero_div]
    linarith [not_le.mp h3]
  · -- running, real reference, transition tick
    exact InvElapsed_of_fields _ _ rfl rfl (InvElapsed_nextPhase now1 _ h)
  · -- running, real reference, ordinary tick
    rcases hst : w.st.startTime with _ | s
    · rw [hst] at h2
      exact absurd rfl h2
    · have hs : s ≤ t := ht s hst
      simp only [render_st, hst, Option.getD_some] at h4 ⊢
      refine ⟨div_nonneg (by linarith) (by norm_num), ?_⟩
      intro d hd
      simp only [render_st, hst, Option.getD_some] at hd
      rw [hd] at h4
      simp only [geOpt, decide_eq_true_eq] at h4
      linarith [not_le.mp h4]
  · -- not running: untouched state
    exact InvElapsed_of_fields _ _ rfl rfl hw

/-- A tick whose computed elapsed reaches the duration performs the phase
transition, after which elapsed is zero. -/
theorem loop_transition_elapsed (w : World) (t now1 now2 s d : ℚ)
    (hrun : w.st.isRunning = true) (hst : w.st.startTime = some s) (hs0 : s ≠ 0)
    (hd : w.st.duration = some d) (hge : d ≤ (t - s) / 1000) :
    (loop t now1 now2 w).st.elapsed = 0 := by
  have hfalsy : falsyTime (some s) = false := by
    simp [falsyTime, hs0]
  have hge' : geOpt ((t - s) / 1000) (some d) = true := by
    simp only [geOpt, decide_eq_true_eq]
    exact hge
  simp [loop, hrun, hfalsy, hst, hd, hge', render_st, nextPhase_elapsed]

/-! ## Claim theorems -/

/-- C7: `formatMMSS` floors its argument to whole seconds, clamps negatives to
zero, and zero-pads both fields: `formatMMSS 0 = "00:00"`,
`formatMMSS 65 = "01:05"`, `formatMMSS (-5) = "00:00"`,
`formatMMSS 5999 = "99:59"`; and the countdown text written by `render` is
`formatMMSS` applied to `max 0 (duration - elapsed)`. -/
theorem formatMMSS_spec :
    formatMMSS (some 0) = "00:00" ∧
    formatMMSS (some 65) = "01:05" ∧
    formatMMSS (some (-5)) = "00:00" ∧
    formatMMSS (some 5999) = "99:59" ∧
    (∀ q : ℚ, formatMMSS (some q) = formatMMSS (some ((max 0 ⌊q⌋ : ℤ) : ℚ))) ∧
    (∀ (w : World) (d : ℚ), w.st.duration = some d →
      (render w).ui.timer = formatMMSS (some (max 0 (d - w.st.elapsed)))) := by
  refine ⟨by decide, by decide, by decide, by decide, ?_, ?_⟩
  · intro q
    have hs : ((0 ⊔ ⌊((max 0 ⌊q⌋ : ℤ) : ℚ)⌋)).toNat = (0 ⊔ ⌊q⌋).toNat := by
      rw [Int.floor_intCast, ← max_assoc, max_self]
    simp only [formatMMSS]
    rw [hs]
  · intro w d hd
    simp [render, jsMax0, jsSub, hd]

/-- C7 witness: the countdown text of `render` on a concrete world. -/
theorem formatMMSS_spec_witness :
    (render sampleWorld).ui.timer = formatMMSS (some (max 0 (1500 - sampleWorld.st.elapsed))) :=
  formatMMSS_spec.2.2.2.2.2 sampleWorld 1500 rfl

/-- C8: `pause` is idempotent: on a non-running world it is a no-op on the
whole observable world, two pauses in a row equal one, and after `pause` the
running flag is always false. -/
theorem pause_idempotent :
    (∀ w : World, w.st.isRunning = false → pause w = w) ∧
    (∀ w : World, pause (pause w) = pause w) ∧
    (∀ w : World, (pause w).st.isRunning = false) := by
  have hnoop : ∀ w : World, w.st.isRunning = false → pause w = w := by
    intro w h
    unfold pause
    rw [h]
    simp
  have hflag : ∀ w : World, (pause w).st.isRunning = false := by
    intro w
    unfold pause
    split <;> simp_all
  refine ⟨hnoop, fun w => hnoop _ (hflag w), hflag⟩

/-- C8 witness: two pauses on a concrete non-running world. -/
theorem pause_idempotent_witness : pause sampleWorld = sampleWorld :=
  pause_idempotent.1 sampleWorld rfl

/-- C9: on a world that is not running, a `loop` invocation leaves the timer
state, the inputs and the visible outputs unchanged and does not schedule
another animation frame. -/
theorem loop_paused (w : World) (t now1 now2 : ℚ) (h : w.st.isRunning = false) :
    (loop t now1 now2 w).st = w.st ∧
    (loop t now1 now2 w).inp = w.inp ∧
    (loop t now1 now2 w).ui = w.ui ∧
    (loop t now1 now2 w).frame = false := by
  simp [loop, h]

/-- C9 witness: a paused tick on a concrete world. -/
theorem loop_paused_witness :
    (loop 16 16 16 sampleWorld).st = sampleWorld.st ∧
    (loop 16 16 16 sampleWorld).inp = sampleWorld.inp ∧
    (loop 16 16 16 sampleWorld).ui = sampleWorld.ui ∧
    (loop 16 16 16 sampleWorld).frame = false :=
  loop_paused sampleWorld 16 16 16 rfl

/-- C4 (code bug evidence): `reset` reads the focus field through
`Number(value || 25)` instead of `Number(value) || 25` (pomodoro.js line 155),
so a non-numeric focus field makes the duration NaN and a zero focus field
makes it 0, while the documented fallback would give 25 minutes = 1500
seconds — as `setPhase` itself does on the very same inputs. -/
theorem reset_fallback_bug :
    (reset { sampleWorld with
               inp := { sampleWorld.inp with focus := FieldVal.nan } }).st.duration = none ∧
    (reset { sampleWorld with
               inp := { sampleWorld.inp with focus := FieldVal.num 0 } }).st.duration = some 0 ∧
    (setPhase Phase.FOCUS false 0 { sampleWorld with
               inp := { sampleWorld.inp with focus := FieldVal.nan } }).st.duration = some 1500 ∧
    (setPhase Phase.FOCUS false 0 { sampleWorld with
               inp := { sampleWorld.inp with focus := FieldVal.num 0 } }).st.duration = some 1500 := by
  refine ⟨rfl, by norm_num [reset, resetParse, sampleWorld], ?_, ?_⟩ <;>
    norm_num [setPhase_st, phaseMinutes, numOr, sampleWorld]

/-- C3: from any starting world whose focus field holds the number `f`,
`reset` yields a not-running FOCUS world at cycle 0 with zero elapsed,
duration `f * 60`, label "READY", control label "Start", the countdown text of
the full duration, and the progress ring at empty (offset = CIRCUMFERENCE). -/
theorem reset_spec (w : World) (f : ℚ) (hf : w.inp.focus = FieldVal.num f) :
    (reset w).st.isRunning = false ∧
    (reset w).st.phase = Phase.FOCUS ∧
    (reset w).st.cycleCount = 0 ∧
    (reset w).st.elapsed = 0 ∧
    (reset w).st.duration = some (f * 60) ∧
    (reset w).ui.label = "READY" ∧
    (reset w).ui.toggleBtn = "Start" ∧
    (reset w).ui.timer = formatMMSS (some (f * 60)) ∧
    (reset w).ui.ringOffsetCoeff = 1 := by
  simp [reset, resetParse, hf]

/-- C3 witness: reset from the middle of a running 25-minute FOCUS countdown
with 600 seconds elapsed, showing duration 1500 and countdown text "25:00". -/
theorem reset_spec_witness :
    ((reset midCountdown).st.isRunning = false ∧
     (reset midCountdown).st.phase = Phase.FOCUS ∧
     (reset midCountdown).st.cycleCount = 0 ∧
     (reset midCountdown).st.elapsed = 0 ∧
     (reset midCountdown).st.duration = some (25 * 60) ∧
     (reset midCountdown).ui.label = "READY" ∧
     (reset midCountdown).ui.toggleBtn = "Start" ∧
     (reset midCountdown).ui.timer = formatMMSS (some (25 * 60)) ∧
     (reset midCountdown).ui.ringOffsetCoeff = 1) ∧
    midCountdown.st.elapsed = 600 ∧ midCountdown.st.isRunning = true ∧
    (25 * 60 : ℚ) = 1500 ∧ formatMMSS (some (25 * 60)) = "25:00" :=
  ⟨reset_spec midCountdown 25 rfl, rfl, rfl, by norm_num,
   by rw [show (25 * 60 : ℚ) = 1500 by norm_num]; decide⟩

/-- C1: a phase completion from FOCUS increments `cycleCount` by exactly one
and goes to LONG BREAK when the new count is divisible by the configured
`cyclesBeforeLong`, else to SHORT BREAK; from a break it returns to FOCUS with
`cycleCount` unchanged. With the default 4 cycles, the completion sequence
from a fresh world is SHORT, SHORT, SHORT, LONG (with `cycleCount = 4` at the
LONG transition) and the fifth FOCUS completion yields SHORT again. -/
theorem nextPhase_spec (w : World) (now : ℚ) (n : ℕ) :
    (w.st.phase = Phase.FOCUS → w.inp.cycles = FieldVal.num (n : ℚ) → 0 < n →
      (nextPhase now w).st.cycleCount = w.st.cycleCount + 1 ∧
      (nextPhase now w).st.phase =
        (if (w.st.cycleCount + 1) % n = 0 then Phase.LONG else Phase.SHORT)) ∧
    (w.st.phase ≠ Phase.FOCUS →
      (nextPhase now w).st.phase = Phase.FOCUS ∧
      (nextPhase now w).st.cycleCount = w.st.cycleCount) ∧
    (((nextPhase 0)^[1] sampleWorld).st.phase = Phase.SHORT ∧
     ((nextPhase 0)^[2] sampleWorld).st.phase = Phase.FOCUS ∧
     ((nextPhase 0)^[3] sampleWorld).st.phase = Phase.SHORT ∧
     ((nextPhase 0)^[4] sampleWorld).st.phase = Phase.FOCUS ∧
     ((nextPhase 0)^[5] sampleWorld).st.phase = Phase.SHORT ∧
     ((nextPhase 0)^[6] sampleWorld).st.phase = Phase.FOCUS ∧
     ((nextPhase 0)^[7] sampleWorld).st.phase = Phase.LONG ∧
     ((nextPhase 0)^[7] sampleWorld).st.cycleCount = 4 ∧
     ((nextPhase 0)^[8] sampleWorld).st.phase = Phase.FOCUS ∧
     ((nextPhase 0)^[9] sampleWorld).st.phase = Phase.SHORT) := by
  refine ⟨?_, ?_, ?_⟩
  · intro h1 h2 h3
    have hnum : numOr (FieldVal.num (n : ℚ)) 4 = (n : ℚ) :=
      numOr_num _ _ (Nat.cast_ne_zero.mpr h3.ne')
    unfold nextPhase
    rw [if_pos h1]
    simp only [h2, hnum, jsRem_natCast (w.st.cycleCount + 1) n h3,
               Option.some.injEq, Nat.cast_eq_zero, setPhase_st]
    split_ifs <;> simp [setPhase_st]
  · intro h
    unfold nextPhase
    rw [if_neg h]
    simp [setPhase_st]
  · norm_num +decide [Function.iterate_succ_apply', Function.iterate_zero_apply,
      nextPhase, setPhase, jsRem, ratTrunc, numOr, phaseMinutes, sampleWorld]

/-- C1 witness: the first FOCUS completion of the fresh sample world. -/
theorem nextPhase_spec_witness :
    (nextPhase 0 sampleWorld).st.cycleCount = sampleWorld.st.cycleCount + 1 ∧
    (nextPhase 0 sampleWorld).st.phase =
      (if (sampleWorld.st.cycleCount + 1) % 4 = 0 then Phase.LONG else Phase.SHORT) :=
  (nextPhase_spec sampleWorld 0 4).1 rfl (by rw [Nat.cast_ofNat]; rfl) (by norm_num)

/-- C5 counterexample: editing the focus field to 2 (numeric, below the
documented minimum of 5) leaves the focus field itself at 2, outside
`[5, 9000]`, and the propagation uses 2 rather than the default 25: the
derived short field becomes 1, not the 5 that `round (25 / 5)` would give. -/
theorem inputClamp_counterexample :
    (onFocusChange { sampleWorld with
        inp := { sampleWorld.inp with focus := FieldVal.num 2 } }).inp.focus = FieldVal.num 2 ∧
    ¬ (5 ≤ (2 : ℚ)) ∧
    (onFocusChange { sampleWorld with
        inp := { sampleWorld.inp with focus := FieldVal.num 2 } }).inp.short = FieldVal.num 1 ∧
    FieldVal.num (1 : ℚ) ≠ FieldVal.num (5 : ℚ) := by
  rw [onFocusChange_inp]
  refine ⟨rfl, by norm_num, ?_, by norm_num⟩
  norm_num [numOr, jsRound, clamp, LIMIT]

/-- C5 amended: after an edit on the focus, short or long field, the two
fields derived by the handler are clamped into `[minimum, 9000]` (minimum 1
for short, 5 for focus/long); a non-numeric, empty or zero edited value falls
back to the field's default (25 / 5 / 15) before propagation; but the edited
field itself keeps its raw value and the cycles field is never rewritten. -/
theorem inputClamp_amended (w : World) :
    (∃ s l : ℚ,
      (onFocusChange w).inp.short = FieldVal.num s ∧ 1 ≤ s ∧ s ≤ 9000 ∧
      (onFocusChange w).inp.long = FieldVal.num l ∧ 5 ≤ l ∧ l ≤ 9000) ∧
    (∃ f l : ℚ,
      (onShortChange w).inp.focus = FieldVal.num f ∧ 5 ≤ f ∧ f ≤ 9000 ∧
      (onShortChange w).inp.long = FieldVal.num l ∧ 5 ≤ l ∧ l ≤ 9000) ∧
    (∃ f s : ℚ,
      (onLongChange w).inp.focus = FieldVal.num f ∧ 5 ≤ f ∧ f ≤ 9000 ∧
      (onLongChange w).inp.short = FieldVal.num s ∧ 1 ≤ s ∧ s ≤ 9000) ∧
    (onFocusChange w).inp.focus = w.inp.focus ∧
    (onFocusChange w).inp.cycles = w.inp.cycles ∧
    (onShortChange w).inp.short = w.inp.short ∧
    (onShortChange w).inp.cycles = w.inp.cycles ∧
    (onLongChange w).inp.long = w.inp.long ∧
    (onLongChange w).inp.cycles = w.inp.cycles ∧
    numOr FieldVal.empty 25 = 25 ∧ numOr FieldVal.nan 25 = 25 ∧
    numOr (FieldVal.num 0) 25 = 25 ∧
    numOr FieldVal.empty 5 = 5 ∧ numOr FieldVal.nan 5 = 5 ∧
    numOr (FieldVal.num 0) 5 = 5 ∧
    numOr FieldVal.empty 15 = 15 ∧ numOr FieldVal.nan 15 = 15 ∧
    numOr (FieldVal.num 0) 15 = 15 := by
  have hb : ∀ v lo : ℚ, lo ≤ LIMIT → clamp v lo LIMIT ≤ 9000 := by
    intro v lo h
    simpa [LIMIT] using clamp_hi v lo LIMIT h
  refine ⟨⟨clamp ((jsRound (numOr w.inp.focus 25 / 5) : ℤ) : ℚ) 1 LIMIT,
           clamp ((jsRound (numOr w.inp.focus 25 * 0.6) : ℤ) : ℚ) 5 LIMIT,
           by rw [onFocusChange_inp], clamp_lo _ _ _, hb _ _ (by norm_num [LIMIT]),
           by rw [onFocusChange_inp], clamp_lo _ _ _, hb _ _ (by norm_num [LIMIT])⟩,
          ⟨clamp (numOr w.inp.short 5 * 5) 5 LIMIT,
           clamp (numOr w.inp.short 5 * 3) 5 LIMIT,
           by rw [onShortChange_inp], clamp_lo _ _ _, hb _ _ (by norm_num [LIMIT]),
           by rw [onShortChange_inp], clamp_lo _ _ _, hb _ _ (by norm_num [LIMIT])⟩,
          ⟨clamp ((jsRound (numOr w.inp.long 15 / 0.6) : ℤ) : ℚ) 5 LIMIT,
           clamp ((jsRound (numOr w.inp.long 15 / 3) : ℤ) : ℚ) 1 LIMIT,
           by rw [onLongChange_inp], clamp_lo _ _ _, hb _ _ (by norm_num [LIMIT]),
           by rw [onLongChange_inp], clamp_lo _ _ _, hb _ _ (by norm_num [LIMIT])⟩,
          by rw [onFocusChange_inp], by rw [onFocusChange_inp],
          by rw [onShortChange_inp], by rw [onShortChange_inp],
          by rw [onLongChange_inp], by rw [onLongChange_inp],
          rfl, rfl, by norm_num [numOr], rfl, rfl, by norm_num [numOr],
          rfl, rfl, by norm_num [numOr]⟩

/-- C6 counterexample: for focus value 7 (inside `[5, 9000]`), the focus edit
derives short `round (7/5) = 1`, and feeding that back through the short edit
path yields focus `clamp (1 * 5) 5 9000 = 5`, which differs from 7 by 2,
beyond the claimed tolerance of 1. -/
theorem ratioRoundTrip_counterexample :
    (5 : ℚ) ≤ 7 ∧ (7 : ℚ) ≤ 9000 ∧
    (onShortChange (onFocusChange { sampleWorld with
        inp := { sampleWorld.inp with focus := FieldVal.num 7 } })).inp.focus
      = FieldVal.num 5 ∧
    ¬ (|(5 : ℚ) - 7| ≤ 1) := by
  refine ⟨by norm_num, by norm_num, ?_, by rw [abs_le]; norm_num⟩
  rw [onShortChange_inp, onFocusChange_inp]
  norm_num [numOr, jsRound, clamp, LIMIT]

/-- C6 amended: for every focus value `f` in `[5, 9000]`, the focus-edit
propagation followed by feeding the derived short back through the short-edit
path, or the derived long back through the long-edit path, yields a focus
value that differs from `f` by at most 3 (the bound 1 claimed by the spec
fails, e.g. at `f = 7` and `f = 5`; 3 is tight at `f = 5` on the long path). -/
theorem ratioRoundTrip_amended (w : World) (f : ℚ) (hf : w.inp.focus = FieldVal.num f)
    (h5 : 5 ≤ f) (h9 : f ≤ 9000) :
    (∃ f1 : ℚ, (onShortChange (onFocusChange w)).inp.focus = FieldVal.num f1 ∧
       |f1 - f| ≤ 3) ∧
    (∃ f2 : ℚ, (onLongChange (onFocusChange w)).inp.focus = FieldVal.num f2 ∧
       |f2 - f| ≤ 3) := by
  have hf0 : numOr w.inp.focus 25 = f := by
    rw [hf]
    exact numOr_num _ _ (by linarith)
  have hshort : (onFocusChange w).inp.short
      = FieldVal.num (clamp ((jsRound (f / 5) : ℤ) : ℚ) 1 LIMIT) := by
    rw [onFocusChange_inp, hf0]
  have hlong : (onFocusChange w).inp.long
      = FieldVal.num (clamp ((jsRound (f * 0.6) : ℤ) : ℚ) 5 LIMIT) := by
    rw [onFocusChange_inp, hf0]
  have hsne : clamp ((jsRound (f / 5) : ℤ) : ℚ) 1 LIMIT ≠ 0 := by
    have := clamp_lo ((jsRound (f / 5) : ℤ) : ℚ) 1 LIMIT
    intro h
    rw [h] at this
    norm_num at this
  have hlne : clamp ((jsRound (f * 0.6) : ℤ) : ℚ) 5 LIMIT ≠ 0 := by
    have := clamp_lo ((jsRound (f * 0.6) : ℤ) : ℚ) 5 LIMIT
    intro h
    rw [h] at this
    norm_num at this
  constructor
  · refine ⟨clamp (clamp ((jsRound (f / 5) : ℤ) : ℚ) 1 LIMIT * 5) 5 LIMIT, ?_,
      shortPathBound f h5 h9⟩
    rw [onShortChange_inp, hshort, numOr_num _ _ hsne]
  · refine ⟨clamp ((jsRound (clamp ((jsRound (f * 0.6) : ℤ) : ℚ) 5 LIMIT / 0.6) : ℤ) : ℚ) 5 LIMIT, ?_,
      longPathBound f h5 h9⟩
    rw [onLongChange_inp, hlong, numOr_num _ _ hlne]

/-- C6 witness: the round trip at the default focus value 25. -/
theorem ratioRoundTrip_amended_witness :
    (∃ f1 : ℚ, (onShortChange (onFocusChange sampleWorld)).inp.focus = FieldVal.num f1 ∧
       |f1 - 25| ≤ 3) ∧
    (∃ f2 : ℚ, (onLongChange (onFocusChange sampleWorld)).inp.focus = FieldVal.num f2 ∧
       |f2 - 25| ≤ 3) :=
  ratioRoundTrip_amended sampleWorld 25 rfl (by norm_num) (by norm_num)

/-- C10: for inputs of 6000 seconds or more, `formatMMSS` renders a minutes
part of three or more digits instead of capping at "99:59":
`formatMMSS 6000 = "100:00"`, the minutes number is at least 100, the minutes
part is the unpadded decimal rendering with at least 3 digits, and the whole
string is at least 6 characters, wider than the 5-character MM:SS shape. -/
theorem formatMMSS_wide :
    formatMMSS (some 6000) = "100:00" ∧
    ∀ q : ℚ, 6000 ≤ q →
      100 ≤ (max 0 ⌊q⌋).toNat / 60 ∧
      formatMMSS (some q)
        = natToStr ((max 0 ⌊q⌋).toNat / 60) ++ ":"
            ++ padStart2 (natToStr ((max 0 ⌊q⌋).toNat % 60)) ∧
      3 ≤ (natToStr ((max 0 ⌊q⌋).toNat / 60)).length ∧
      6 ≤ (formatMMSS (some q)).length := by
  constructor
  · decide
  · intro q hq
    have hfl : (6000 : ℤ) ≤ ⌊q⌋ := Int.le_floor.mpr (by exact_mod_cast hq)
    have hmax : max 0 ⌊q⌋ = ⌊q⌋ := max_eq_right (by omega)
    have hs6 : 6000 ≤ (max 0 ⌊q⌋).toNat := by
      rw [hmax]
      omega
    have hm : 100 ≤ (max 0 ⌊q⌋).toNat / 60 := by omega
    have hlen3 : 3 ≤ (natToStr ((max 0 ⌊q⌋).toNat / 60)).length :=
      natToStr_length _ 2 (by norm_num; omega)
    have heq : formatMMSS (some q)
        = natToStr ((max 0 ⌊q⌋).toNat / 60) ++ ":"
            ++ padStart2 (natToStr ((max 0 ⌊q⌋).toNat % 60)) := by
      simp only [formatMMSS]
      rw [padStart2_of_ge _ (by omega)]
    refine ⟨hm, heq, hlen3, ?_⟩
    rw [heq, String.length_append, String.length_append]
    have h2 := padStart2_length (natToStr ((max 0 ⌊q⌋).toNat % 60))
    have hc : (":" : String).length = 1 := rfl
    omega

/-- C10 witness: the boundary value 6000 seconds itself. -/
theorem formatMMSS_wide_witness :
    100 ≤ (max 0 ⌊(6000 : ℚ)⌋).toNat / 60 ∧
    formatMMSS (some 6000)
      = natToStr ((max 0 ⌊(6000 : ℚ)⌋).toNat / 60) ++ ":"
          ++ padStart2 (natToStr ((max 0 ⌊(6000 : ℚ)⌋).toNat % 60)) ∧
    3 ≤ (natToStr ((max 0 ⌊(6000 : ℚ)⌋).toNat / 60)).length ∧
    6 ≤ (formatMMSS (some 6000)).length :=
  formatMMSS_wide.2 6000 le_rfl

/-- C2: on a reachable state (elapsed within bounds, nonnegative configured
minutes) every operation preserves `0 ≤ elapsedSeconds ≤ durationSeconds` for
numeric durations: `setPhase`, `start`, `pause`, `reset`, and a `tick` whose
timestamp is not before the reference point; and a tick whose computed
elapsed reaches or exceeds the duration performs the transition, which resets
elapsed to zero. -/
theorem elapsed_invariant (w : World) (p : Phase) (ft : Bool) (now t now1 now2 : ℚ)
    (hinp : GoodInputs w.inp) (hw : InvElapsed w.st) :
    InvElapsed (setPhase p ft now w).st ∧
    InvElapsed (start now w).st ∧
    InvElapsed (pause w).st ∧
    InvElapsed (reset w).st ∧
    ((∀ s : ℚ, w.st.startTime = some s → s ≤ t) →
      InvElapsed (loop t now1 now2 w).st) ∧
    (∀ s d : ℚ, w.st.isRunning = true → w.st.startTime = some s → s ≠ 0 →
      w.st.duration = some d → d ≤ (t - s) / 1000 →
      (loop t now1 now2 w).st.elapsed = 0) :=
  ⟨InvElapsed_setPhase w p ft now hinp,
   InvElapsed_start w now hinp hw,
   InvElapsed_pause w hw,
   InvElapsed_reset w hinp,
   fun ht => InvElapsed_loop w t now1 now2 hinp hw ht,
   fun s d hrun hst hs0 hd hge =>
     loop_transition_elapsed w t now1 now2 s d hrun hst hs0 hd hge⟩

/-- C2 witness: the invariant after each operation on the concrete running
mid-countdown world (reference point 0 is falsy in JS, so use 1). -/
theorem elapsed_invariant_witness :
    InvElapsed (setPhase Phase.SHORT false 2 midCountdown).st ∧
    InvElapsed (start 2 midCountdown).st ∧
    InvElapsed (pause midCountdown).st ∧
    InvElapsed (reset midCountdown).st ∧
    ((∀ s : ℚ, midCountdown.st.startTime = some s → s ≤ 3) →
      InvElapsed (loop 3 4 5 midCountdown).st) ∧
    (∀ s d : ℚ, midCountdown.st.isRunning = true → midCountdown.st.startTime = some s →
      s ≠ 0 → midCountdown.st.duration = some d → d ≤ (3 - s) / 1000 →
      (loop 3 4 5 midCountdown).st.elapsed = 0) :=
  elapsed_invariant midCountdown Phase.SHORT false 2 3 4 5
    (by refine ⟨by norm_num [numOr, midCountdown], by norm_num [numOr, midCountdown],
          by norm_num [numOr, midCountdown], ?_⟩
        intro q hq
        simp only [midCountdown, resetParse, Option.some.injEq] at hq
        rw [← hq]
        norm_num)
    (by refine ⟨by norm_num [midCountdown], ?_⟩
        intro d hd
        simp only [midCountdown, Option.some.injEq] at hd
        rw [← hd]
        norm_num [midCountdown])

end Pomodoro
